import Mathlib

/-!
Verification development for the Chatterbox WebSocket chat repository.

The frontend logic (`Frontend/app.js`) is embedded shallowly: the module-level
mutable variables (`socket`, `currentUsername`, `currentRoom`, `isTyping`,
`typingTimeout`) together with the DOM state the handlers read and write
(`messageInput.value`, `usernameInput.value`, `roomSelect.value`, the rendered
message list, the typing indicator, the hidden class on the chat screen) form
a `ClientState` record, and each JavaScript event handler becomes a function
`ClientState → ClientState`.  Browser events (socket open/close, timer
callbacks, DOM input events, inbound server messages) drive a step function;
a run is a fold of the step function over an event list from the initial
module state.

Timers are modelled as pending entries recording the delay in milliseconds
that `setTimeout` was given; a separate event fires a pending timer.
`socket.send` transmits only on an OPEN socket (on a CONNECTING socket the
real call throws before anything is sent, on a CLOSED socket the data is
discarded), so the model appends the envelope to the socket's transcript only
in the OPEN state.

The backend (`backend/main.py`) is not part of `src/`; the small registry /
broadcast model near the end is explicitly modelled from the spec.
-/

set_option autoImplicit false

namespace Chatterbox

/-- Wire envelopes the client sends (app.js lines 153, 278, 290, 326, 342).
The join envelope is the object `\x7busername, room\x7d` with no `type` tag;
the other three carry a `type` tag (`chat` also carries the message text). -/
inductive ClientEnvelope where
  | join (username : String) (room : String)
  | chat (message : String)
  | typing
  | stop_typing
  deriving DecidableEq, Repr

/-- Wire envelopes the client receives, as dispatched by `handleMessage`
(app.js lines 190-208).  `typing` carries an optional user list because the
handler guards `!users`. -/
inductive ServerEnvelope where
  | chat (username : String) (message : String) (timestamp : String)
  | system (message : String)
  | typing (users : Option (List String))
  | stats (online : Nat)
  deriving DecidableEq, Repr

/-- WebSocket readyState values relevant to app.js. -/
inductive ReadyState where
  | CONNECTING
  | OPEN
  | CLOSED
  deriving DecidableEq, Repr

/-- One WebSocket object: its readyState and the ordered transcript of
envelopes actually transmitted on it. -/
structure Socket where
  readyState : ReadyState
  sent : List ClientEnvelope
  deriving DecidableEq, Repr

/-- `socket.send(data)`: transmits only when the socket is OPEN (a send on a
CONNECTING socket throws before transmitting; on a CLOSED socket the data is
silently discarded). -/
def Socket.send (sock : Socket) (env : ClientEnvelope) : Socket :=
  if sock.readyState = ReadyState.OPEN then
    { sock with sent := sock.sent ++ [env] }
  else
    sock

/-- An entry of the rendered message list (`messagesList` children):
either a chat message rendered by `addChatMessage` or a system message
rendered by `addSystemMessage`. -/
inductive RenderedItem where
  | chatMsg (username : String) (message : String) (timestamp : String) (isOwn : Bool)
  | systemMsg (message : String)
  deriving DecidableEq, Repr

/-- The client state: module-level variables of app.js plus the DOM state the
handlers read and write.  `typingTimeout` and `reconnectTimers` record pending
`setTimeout` callbacks by the delay (ms) they were scheduled with.
`closedSockets` is a ghost transcript of sockets on which `close()` was
called explicitly; `typingLog` is a ghost log of every `socket.send` attempt
of a typing (`true`) or stop_typing (`false`) envelope, whether or not the
socket was open. -/
structure ClientState where
  socket : Option Socket
  currentUsername : String
  currentRoom : String
  isTyping : Bool
  typingTimeout : Option Nat
  reconnectTimers : List Nat
  chatScreenHidden : Bool
  messageInput : String
  usernameInput : String
  roomSelect : String
  sendBtnDisabled : Bool
  messagesList : List RenderedItem
  typingIndicator : Option String
  onlineText : String
  closedSockets : List Socket
  typingLog : List Bool
  nowH : Nat
  nowM : Nat
  deriving DecidableEq, Repr

/-- Module load state: `socket = null`, `currentUsername = saved empty`,
`currentRoom = general`, `isTyping = false`, no pending timers, login screen
shown (chat screen hidden), empty inputs and message list. -/
def initialState : ClientState where
  socket := none
  currentUsername := ""
  currentRoom := "general"
  isTyping := false
  typingTimeout := none
  reconnectTimers := []
  chatScreenHidden := true
  messageInput := ""
  usernameInput := ""
  roomSelect := "general"
  sendBtnDisabled := true
  messagesList := []
  typingIndicator := none
  onlineText := ""
  closedSockets := []
  typingLog := []
  nowH := 0
  nowM := 0

/-- The character class matched by `\s` in JavaScript regular expressions
(also the set `String.prototype.trim` strips): tab, line feed, vertical tab,
form feed, carriage return, space, no-break space, ogham space mark, the
en-quad..hair-space range, line separator, paragraph separator, narrow
no-break space, medium mathematical space, ideographic space, zero-width
no-break space. -/
def jsWhitespace (c : Char) : Bool :=
  let n := c.toNat
  n == 0x9 || n == 0xA || n == 0xB || n == 0xC || n == 0xD || n == 0x20 ||
  n == 0xA0 || n == 0x1680 || (decide (0x2000 ≤ n) && decide (n ≤ 0x200A)) ||
  n == 0x2028 || n == 0x2029 || n == 0x202F || n == 0x205F || n == 0x3000 ||
  n == 0xFEFF

/-- The character class `[a-zA-Z0-9_]`. -/
def jsWordChar (c : Char) : Bool :=
  let n := c.toNat
  (decide (0x41 ≤ n) && decide (n ≤ 0x5A)) ||
  (decide (0x61 ≤ n) && decide (n ≤ 0x7A)) ||
  (decide (0x30 ≤ n) && decide (n ≤ 0x39)) ||
  n == 0x5F

/-- `String.prototype.trim()`: strip leading and trailing whitespace. -/
def jsTrim (s : String) : String :=
  String.mk (((s.toList.dropWhile jsWhitespace).reverse.dropWhile jsWhitespace).reverse)

/-- The username input listener (app.js line 459):
`this.value = this.value.replace(/[^a-zA-Z0-9_\s]/g, '')` — delete every
character that is neither a word character nor whitespace. -/
def filterUsernameInput (s : String) : String :=
  String.mk (s.toList.filter (fun c => jsWordChar c || jsWhitespace c))

/-- Fueled worker for `collapseSpaces`: each maximal run of two or more
whitespace characters is replaced by a single space; a lone whitespace
character is kept as is. -/
def collapseRunsFuel : Nat → List Char → List Char
  | 0, _ => []
  | _ + 1, [] => []
  | fuel + 1, c :: rest =>
    if jsWhitespace c then
      let run := rest.takeWhile jsWhitespace
      let rest2 := rest.dropWhile jsWhitespace
      (if run.isEmpty then [c] else [' ']) ++ collapseRunsFuel fuel rest2
    else
      c :: collapseRunsFuel fuel rest

/-- The message input listener (app.js line 454):
`this.value = this.value.replace(/\s\x7b2,\x7d/g, ' ')`. -/
def collapseSpaces (s : String) : String :=
  String.mk (collapseRunsFuel s.toList.length s.toList)

/-- `String(n).padStart(2, '0')`. -/
def padStart2Zero (s : String) : String :=
  if s.length ≥ 2 then s
  else if s.length = 1 then "0" ++ s
  else "00"

/-- `getCurrentTime` (app.js lines 429-434), as a function of the wall
clock's hour and minute components: zero-padded `HH:MM`. -/
def getCurrentTime (hours : Nat) (minutes : Nat) : String :=
  padStart2Zero (toString hours) ++ ":" ++ padStart2Zero (toString minutes)

/-- Is the current socket non-null and OPEN (the guard
`!socket || socket.readyState !== WebSocket.OPEN` negated)? -/
def socketIsOpen (s : ClientState) : Bool :=
  match s.socket with
  | some sock => sock.readyState = ReadyState.OPEN
  | none => false

/-- `connectWebSocket` (app.js lines 143-185): shows the connecting status
(UI only) and replaces `socket` with a freshly constructed WebSocket, whose
transcript is empty and whose readyState is CONNECTING.  The `onopen`,
`onmessage`, `onclose` callbacks fire later as separate events. -/
def connectWebSocket (s : ClientState) : ClientState :=
  { s with socket := some { readyState := ReadyState.CONNECTING, sent := [] } }

/-- The `socket.onopen` callback (app.js lines 149-162), fired when the
current socket completes its handshake (CONNECTING → OPEN): sends the join
envelope `\x7busername: currentUsername, room: currentRoom\x7d` as the very
first message on the connection. -/
def socketOnOpen (s : ClientState) : ClientState :=
  match s.socket with
  | some sock =>
    if sock.readyState = ReadyState.CONNECTING then
      let sock := { sock with readyState := ReadyState.OPEN }
      let sock := sock.send (ClientEnvelope.join s.currentUsername s.currentRoom)
      { s with socket := some sock }
    else
      s
  | none => s

/-- The `socket.onclose` callback for the current socket (app.js lines
174-184): the socket is now CLOSED; a reconnect `setTimeout` of 2000 ms is
scheduled unconditionally (the hidden-screen check happens when it fires). -/
def socketOnClose (s : ClientState) : ClientState :=
  match s.socket with
  | some sock =>
    { s with socket := some { sock with readyState := ReadyState.CLOSED },
             reconnectTimers := s.reconnectTimers ++ [2000] }
  | none => s

/-- The reconnect `setTimeout` callback (app.js lines 179-183), firing the
oldest pending reconnect timer: if the chat screen is not hidden,
`connectWebSocket()` runs; otherwise nothing happens. -/
def reconnectFire (s : ClientState) : ClientState :=
  match s.reconnectTimers with
  | [] => s
  | _ :: rest =>
    let s := { s with reconnectTimers := rest }
    if s.chatScreenHidden then s else connectWebSocket s

/-- `handleJoin` (app.js lines 108-138): read the trimmed username and the
selected room; an empty username (focus/border feedback is UI only) or a
username longer than 20 characters (alert) returns without connecting;
otherwise store them, reveal the chat screen and call `connectWebSocket`. -/
def handleJoin (s : ClientState) : ClientState :=
  let username := jsTrim s.usernameInput
  let room := s.roomSelect
  if username = "" then s
  else if username.length > 20 then s
  else
    connectWebSocket
      { s with currentUsername := username, currentRoom := room,
               chatScreenHidden := false }

/-- `handleTyping` (app.js lines 267-293): update the send button; return if
the socket is not open; if the trimmed message is non-empty and `isTyping` is
false, set it and send a typing envelope; finally clear any pending debounce
timer and schedule a fresh 1000 ms one. -/
def handleTyping (s : ClientState) : ClientState :=
  let message := jsTrim s.messageInput
  let s := { s with sendBtnDisabled := message = "" }
  if ¬ socketIsOpen s then s
  else
    let s :=
      if message ≠ "" ∧ s.isTyping = false then
        { s with isTyping := true,
                 socket := s.socket.map (fun sock => sock.send ClientEnvelope.typing),
                 typingLog := s.typingLog ++ [true] }
      else s
    { s with typingTimeout := some 1000 }

/-- The debounce `setTimeout` callback (app.js lines 287-292), firing the
pending typing timer: if `isTyping` is set, clear it and send a stop_typing
envelope on whatever socket the module variable currently holds. -/
def typingTimeoutFire (s : ClientState) : ClientState :=
  match s.typingTimeout with
  | none => s
  | some _ =>
    let s := { s with typingTimeout := none }
    if s.isTyping then
      { s with isTyping := false,
               socket := s.socket.map (fun sock => sock.send ClientEnvelope.stop_typing),
               typingLog := s.typingLog ++ [false] }
    else s

/-- `addChatMessage` (app.js lines 210-249): append a chat entry to the
message list; `isOwn` compares the username with `currentUsername`; a falsy
timestamp falls back to `getCurrentTime()`. -/
def addChatMessage (s : ClientState) (username : String) (message : String)
    (timestamp : String) : ClientState :=
  let isOwn := username == s.currentUsername
  let ts := if timestamp = "" then getCurrentTime s.nowH s.nowM else timestamp
  { s with messagesList :=
      s.messagesList ++ [RenderedItem.chatMsg username message ts isOwn] }

/-- `addSystemMessage` (app.js lines 251-262). -/
def addSystemMessage (s : ClientState) (message : String) : ClientState :=
  { s with messagesList := s.messagesList ++ [RenderedItem.systemMsg message] }

/-- The text built by `updateTypingIndicator` for a non-empty user list
(app.js lines 303-310). -/
def typingIndicatorText (users : List String) : String :=
  if users.length = 1 then
    users.headD "" ++ " is typing..."
  else if users.length = 2 then
    users.headD "" ++ " and " ++ (users.drop 1).headD "" ++ " are typing..."
  else
    users.headD "" ++ ", " ++ (users.drop 1).headD "" ++ " and " ++
      toString (users.length - 2) ++ " others are typing..."

/-- `updateTypingIndicator` (app.js lines 295-313) as a pure function from
the `users` payload to the indicator state (`none` = hidden). -/
def updateTypingIndicator (users : Option (List String)) : Option String :=
  match users with
  | none => none
  | some us => if us.length = 0 then none else some (typingIndicatorText us)

/-- `updateOnlineCount` (app.js lines 419-422). -/
def updateOnlineCount (count : Nat) : String :=
  toString count ++ " user" ++ (if count = 1 then "" else "s") ++ " online"

/-- `handleMessage` (app.js lines 190-208): dispatch on `data.type`. -/
def handleMessage (s : ClientState) (data : ServerEnvelope) : ClientState :=
  match data with
  | ServerEnvelope.chat u m t => addChatMessage s u m t
  | ServerEnvelope.system m => addSystemMessage s m
  | ServerEnvelope.typing users =>
    { s with typingIndicator := updateTypingIndicator users }
  | ServerEnvelope.stats n => { s with onlineText := updateOnlineCount n }

/-- `sendMessage` (app.js lines 318-348): return unless the trimmed message
is non-empty and the socket is open; send the chat envelope; render the own
message immediately; clear the input; if `isTyping`, clear it and send
stop_typing; clear the pending debounce timer. -/
def sendMessage (s : ClientState) : ClientState :=
  let message := jsTrim s.messageInput
  if message = "" ∨ socketIsOpen s = false then s
  else
    let s := { s with socket := s.socket.map (fun sock => sock.send (ClientEnvelope.chat message)) }
    let s := addChatMessage s s.currentUsername message (getCurrentTime s.nowH s.nowM)
    let s := { s with messageInput := "", sendBtnDisabled := true }
    let s :=
      if s.isTyping then
        { s with isTyping := false,
                 socket := s.socket.map (fun sock => sock.send ClientEnvelope.stop_typing),
                 typingLog := s.typingLog ++ [false] }
      else s
    { s with typingTimeout := none }

/-- `socket.close()` on the current socket: readyState becomes CLOSED and the
closed socket is archived in the ghost transcript (its `onclose` callback
fires later as a separate event). -/
def closeCurrentSocket (s : ClientState) : ClientState :=
  match s.socket with
  | none => s
  | some sock =>
    let closed := { sock with readyState := ReadyState.CLOSED }
    { s with socket := some closed, closedSockets := s.closedSockets ++ [closed] }

/-- `switchRoom` (app.js lines 370-387): no-op when the room is unchanged;
otherwise update `currentRoom`, clear the rendered messages, close the
current socket if any, and open a fresh connection. -/
def switchRoom (s : ClientState) (newRoom : String) : ClientState :=
  if newRoom = s.currentRoom then s
  else
    connectWebSocket
      (closeCurrentSocket
        { s with currentRoom := newRoom, messagesList := [] })

/-- `handleLeave` (app.js lines 397-414) after a confirmed dialog: close the
socket, clear messages and inputs, forget the username, show the login
screen. -/
def handleLeave (s : ClientState) : ClientState :=
  let s := closeCurrentSocket s
  { s with messagesList := [], messageInput := "", usernameInput := "",
           currentUsername := "", chatScreenHidden := true }

/-- A browser-level event driving the client. -/
inductive ClientEvent where
  /-- Join button click or Enter in the username field → `handleJoin`. -/
  | joinClick
  /-- The current socket's handshake completes → `onopen`. -/
  | sockOpen
  /-- The current socket closes → `onclose`. -/
  | sockClose
  /-- The `onclose` of a socket that was already replaced fires: it only
  schedules the 2000 ms reconnect timer. -/
  | staleSockClose
  /-- The oldest pending reconnect timer fires. -/
  | reconnectFires
  /-- An input event on the message field with new raw value `t`: the
  whitespace-collapsing listener rewrites the value, then `handleTyping`. -/
  | msgInput (t : String)
  /-- The pending typing debounce timer fires. -/
  | typingFires
  /-- Send button click or Enter → `sendMessage`. -/
  | sendClick
  /-- An inbound server envelope → `handleMessage`. -/
  | serverMsg (data : ServerEnvelope)
  /-- A room item click in the modal (app.js lines 94-102): `switchRoom`
  only when the clicked room differs from the current one. -/
  | roomItemClick (room : String)
  /-- The login room selector changes. -/
  | roomSelectInput (r : String)
  /-- An input event on the username field with new raw value `t`: the
  filtering listener rewrites the value. -/
  | usernameType (t : String)
  /-- Leave button click with a confirmed dialog → `handleLeave`. -/
  | leaveConfirmed
  deriving DecidableEq, Repr

/-- One event step of the client. -/
def step (s : ClientState) : ClientEvent → ClientState
  | ClientEvent.joinClick => handleJoin s
  | ClientEvent.sockOpen => socketOnOpen s
  | ClientEvent.sockClose => socketOnClose s
  | ClientEvent.staleSockClose => { s with reconnectTimers := s.reconnectTimers ++ [2000] }
  | ClientEvent.reconnectFires => reconnectFire s
  | ClientEvent.msgInput t => handleTyping { s with messageInput := collapseSpaces t }
  | ClientEvent.typingFires => typingTimeoutFire s
  | ClientEvent.sendClick => sendMessage s
  | ClientEvent.serverMsg data => handleMessage s data
  | ClientEvent.roomItemClick room => if room ≠ s.currentRoom then switchRoom s room else s
  | ClientEvent.roomSelectInput r => { s with roomSelect := r }
  | ClientEvent.usernameType t => { s with usernameInput := filterUsernameInput t }
  | ClientEvent.leaveConfirmed => handleLeave s

/-- A run of the client from module load. -/
def run (events : List ClientEvent) : ClientState :=
  events.foldl step initialState

/-- A transcript is empty or begins with a join envelope. -/
def joinFirst (l : List ClientEnvelope) : Prop :=
  l = [] ∨ ∃ u r rest, l = ClientEnvelope.join u r :: rest

/-- Per-socket invariant: nothing is transmitted before the handshake
completes, an open socket has sent its join envelope first, and every
transcript starts with a join envelope if it is non-empty. -/
def socketInv (sock : Socket) : Prop :=
  (sock.readyState = ReadyState.CONNECTING → sock.sent = []) ∧
  (sock.readyState = ReadyState.OPEN →
    ∃ u r rest, sock.sent = ClientEnvelope.join u r :: rest) ∧
  joinFirst sock.sent

/-- Does a list of typing-kind send attempts (`true` = typing, `false` =
stop_typing) strictly alternate, with `b` as the next expected kind? -/
def altFrom (b : Bool) : List Bool → Bool
  | [] => true
  | x :: rest => (x == b) && altFrom (!b) rest

/-- Characters the username input listener lets through. -/
def allowedChar (c : Char) : Bool :=
  jsWordChar c || jsWhitespace c

/-- The character set the spec's words name for usernames: alphanumeric,
underscore, or the space character — stated from the spec for comparison
with the code's `allowedChar`. -/
def specUsernameChar (c : Char) : Bool :=
  jsWordChar c || c == ' '

/-- The typing-kind envelopes of a transcript, in order
(`true` = typing, `false` = stop_typing). -/
def typingKinds (l : List ClientEnvelope) : List Bool :=
  l.filterMap (fun e =>
    match e with
    | ClientEnvelope.typing => some true
    | ClientEnvelope.stop_typing => some false
    | _ => none)

/-- Do the typing-kind envelopes transmitted on one connection strictly
alternate starting with typing? -/
def connAlternates (sock : Socket) : Bool :=
  altFrom true (typingKinds sock.sent)

/-- Reachable-state invariant of the client machine: the current socket and
every explicitly closed socket satisfy `socketInv`; the ghost log of
typing-kind send attempts strictly alternates starting with typing, and
`isTyping` records whether its length is odd; the username input and the
stored username contain only characters the input filter lets through. -/
def StateInv (s : ClientState) : Prop :=
  (∀ sock, s.socket = some sock → socketInv sock) ∧
  (∀ sock ∈ s.closedSockets, socketInv sock) ∧
  altFrom true s.typingLog = true ∧
  (s.isTyping = true ↔ s.typingLog.length % 2 = 1) ∧
  (∀ c ∈ s.usernameInput.toList, allowedChar c = true) ∧
  (∀ c ∈ s.currentUsername.toList, allowedChar c = true)

/-- The event sequence refuting per-connection alternation of typing
envelopes: join as "Ada" in general, type "hi" (sending a typing envelope
and arming the 1-second debounce timer), switch to the tech room (closing
the socket and opening a fresh one without clearing `isTyping` or the
pending timer), complete the new handshake, then let the debounce timer
fire. -/
def c9events : List ClientEvent :=
  [ClientEvent.usernameType "Ada", ClientEvent.joinClick, ClientEvent.sockOpen,
   ClientEvent.msgInput "hi", ClientEvent.roomItemClick "tech",
   ClientEvent.sockOpen, ClientEvent.typingFires]

/-- Concrete state for exercising `handleTyping`: open socket, message "hi"
typed. -/
def typingStateA : ClientState :=
  { initialState with
      socket := some { readyState := ReadyState.OPEN, sent := [] },
      messageInput := "hi" }

/-- Concrete state for exercising the debounce timer callback: a pending
1000 ms timer with the typing flag set. -/
def typingStateB : ClientState :=
  { initialState with typingTimeout := some 1000, isTyping := true }

/-- Concrete state for exercising `switchRoom`: "Ada" joined the general
room over an open socket. -/
def switchStateC6 : ClientState :=
  { initialState with
      socket := some { readyState := ReadyState.OPEN,
                       sent := [ClientEnvelope.join "Ada" "general"] },
      currentUsername := "Ada", currentRoom := "general",
      chatScreenHidden := false }

/-- Concrete state for exercising `sendMessage`: "Ada" with the message
"hi" pending over an open socket at 14:30. -/
def sendStateC10 : ClientState :=
  { initialState with
      socket := some { readyState := ReadyState.OPEN, sent := [] },
      messageInput := "hi", currentUsername := "Ada", nowH := 14, nowM := 30 }

/-- Modelled from the spec: the backend (`backend/main.py`, the Connection
Registry and Room Broadcaster of §4.1-§4.2) is not under `src/`.  A server
connection record holds a unique id, the username, and the single room the
connection belongs to. -/
structure ServerConn where
  id : Nat
  username : String
  room : String
  deriving DecidableEq, Repr

/-- Modelled from the spec: the Registry owns the authoritative collection
of active connections (`connection id → Connection`); each connection
belongs to exactly one room. -/
structure Registry where
  conns : List ServerConn
  deriving DecidableEq, Repr

/-- Modelled from the spec: `membersOf(room)` — the connections currently
assigned to `room`. -/
def membersOf (reg : Registry) (room : String) : List ServerConn :=
  reg.conns.filter (fun c => c.room == room)

/-- Modelled from the spec: `broadcast(room, envelope)` with no exclusion
(the chat broadcast includes the sender, §4.5) delivers the envelope to
every connection currently in `room`, pairing each recipient with the
envelope it receives. -/
def broadcastDeliveries (reg : Registry) (room : String) (env : ServerEnvelope) :
    List (ServerConn × ServerEnvelope) :=
  (membersOf reg room).map (fun c => (c, env))

/-! ### Helper lemmas -/

theorem toList_mk (l : List Char) : (String.mk l).toList = l := rfl

theorem mem_of_mem_dropWhile {α : Type} (p : α → Bool) (l : List α) (a : α)
    (h : a ∈ l.dropWhile p) : a ∈ l := by
  induction l with
  | nil => simp at h
  | cons x xs ih =>
    rw [List.dropWhile_cons] at h
    by_cases hp : p x
    · simp only [hp, if_true] at h
      exact List.mem_cons_of_mem _ (ih h)
    · simp only [hp, if_false] at h
      exact h

theorem mem_jsTrim {c : Char} {s : String} (h : c ∈ (jsTrim s).toList) :
    c ∈ s.toList := by
  unfold jsTrim at h
  rw [toList_mk, List.mem_reverse] at h
  have h2 := mem_of_mem_dropWhile _ _ _ h
  rw [List.mem_reverse] at h2
  exact mem_of_mem_dropWhile _ _ _ h2

theorem altFrom_snoc (l : List Bool) (b x : Bool) (h : altFrom b l = true)
    (hx : x = (if l.length % 2 = 0 then b else !b)) :
    altFrom b (l ++ [x]) = true := by
  induction l generalizing b with
  | nil =>
    simp only [List.length_nil, Nat.zero_mod, if_pos rfl] at hx
    subst hx
    simp [altFrom]
  | cons y ys ih =>
    simp only [altFrom, Bool.and_eq_true, beq_iff_eq] at h
    obtain ⟨hy, hrest⟩ := h
    simp only [List.cons_append, altFrom, Bool.and_eq_true, beq_iff_eq]
    refine ⟨hy, ih (!b) hrest ?_⟩
    simp only [List.length_cons] at hx
    by_cases hp : ys.length % 2 = 0
    · rw [if_neg (by omega : ¬ (ys.length + 1) % 2 = 0)] at hx
      rw [if_pos hp]
      exact hx
    · rw [if_pos (by omega : (ys.length + 1) % 2 = 0)] at hx
      rw [if_neg hp]
      simp [hx]

theorem socketInv_fresh :
    socketInv { readyState := ReadyState.CONNECTING, sent := [] } := by
  refine ⟨fun _ => rfl, fun h => ?_, Or.inl rfl⟩
  exact absurd h (by decide)

theorem socketInv_send (sock : Socket) (env : ClientEnvelope)
    (h : socketInv sock) : socketInv (sock.send env) := by
  obtain ⟨h1, h2, h3⟩ := h
  unfold Socket.send
  split
  · rename_i hopen
    obtain ⟨u, r, rest, hsent⟩ := h2 hopen
    refine ⟨fun hc => ?_, fun _ => ?_, ?_⟩
    · exact absurd (hopen ▸ hc) (by decide)
    · exact ⟨u, r, rest ++ [env], by simp [hsent]⟩
    · exact Or.inr ⟨u, r, rest ++ [env], by simp [hsent]⟩
  · exact ⟨h1, h2, h3⟩

theorem socketInv_close (sock : Socket) (h : socketInv sock) :
    socketInv { sock with readyState := ReadyState.CLOSED } := by
  refine ⟨fun hc => ?_, fun hc => ?_, h.2.2⟩
  · simp at hc
  · simp at hc

theorem stateInv_congr {s t : ClientState}
    (h1 : t.socket = s.socket) (h2 : t.closedSockets = s.closedSockets)
    (h3 : t.typingLog = s.typingLog) (h4 : t.isTyping = s.isTyping)
    (h5 : t.usernameInput = s.usernameInput)
    (h6 : t.currentUsername = s.currentUsername)
    (h : StateInv s) : StateInv t := by
  unfold StateInv at h ⊢
  rw [h1, h2, h3, h4, h5, h6]
  exact h

theorem stateInv_connectWebSocket (s : ClientState) (h : StateInv s) :
    StateInv (connectWebSocket s) := by
  obtain ⟨hS, hC, hA, hP, hU, hN⟩ := h
  refine ⟨?_, hC, hA, hP, hU, hN⟩
  intro sock hsock
  simp only [connectWebSocket, Option.some.injEq] at hsock
  rw [← hsock]
  exact socketInv_fresh

theorem stateInv_socketOnOpen (s : ClientState) (h : StateInv s) :
    StateInv (socketOnOpen s) := by
  obtain ⟨hS, hC, hA, hP, hU, hN⟩ := h
  unfold socketOnOpen
  cases hcase : s.socket with
  | none => exact ⟨fun sock hsock => hS sock hsock, hC, hA, hP, hU, hN⟩
  | some sock =>
    show StateInv
      (if sock.readyState = ReadyState.CONNECTING then
        { s with socket := some (Socket.send
            { readyState := ReadyState.OPEN, sent := sock.sent }
            (ClientEnvelope.join s.currentUsername s.currentRoom)) }
       else s)
    by_cases hr : sock.readyState = ReadyState.CONNECTING
    · rw [if_pos hr]
      refine ⟨?_, hC, hA, hP, hU, hN⟩
      intro sock2 hsock2
      have h2 := Option.some.inj hsock2
      rw [← h2]
      have hsent : sock.sent = [] := (hS sock hcase).1 hr
      unfold Socket.send
      rw [if_pos rfl]
      refine ⟨fun hc => ?_, fun _ => ?_, ?_⟩
      · simp at hc
      · exact ⟨s.currentUsername, s.currentRoom, [], by simp [hsent]⟩
      · exact Or.inr ⟨s.currentUsername, s.currentRoom, [], by simp [hsent]⟩
    · rw [if_neg hr]
      exact ⟨fun sock2 hsock2 => hS sock2 hsock2, hC, hA, hP, hU, hN⟩

theorem stateInv_socketOnClose (s : ClientState) (h : StateInv s) :
    StateInv (socketOnClose s) := by
  obtain ⟨hS, hC, hA, hP, hU, hN⟩ := h
  unfold socketOnClose
  cases hcase : s.socket with
  | none => exact ⟨fun sock hsock => hS sock hsock, hC, hA, hP, hU, hN⟩
  | some sock =>
    refine ⟨?_, hC, hA, hP, hU, hN⟩
    intro sock2 hsock2
    simp only [Option.some.injEq] at hsock2
    rw [← hsock2]
    exact socketInv_close sock (hS sock hcase)

theorem stateInv_closeCurrentSocket (s : ClientState) (h : StateInv s) :
    StateInv (closeCurrentSocket s) := by
  obtain ⟨hS, hC, hA, hP, hU, hN⟩ := h
  unfold closeCurrentSocket
  cases hcase : s.socket with
  | none => exact ⟨fun sock hsock => hS sock hsock, hC, hA, hP, hU, hN⟩
  | some sock =>
    refine ⟨?_, ?_, hA, hP, hU, hN⟩
    · intro sock2 hsock2
      simp only [Option.some.injEq] at hsock2
      rw [← hsock2]
      exact socketInv_close sock (hS sock hcase)
    · intro sock2 hsock2
      simp only [List.mem_append, List.mem_singleton] at hsock2
      rcases hsock2 with hmem | heq
      · exact hC sock2 hmem
      · rw [heq]
        exact socketInv_close sock (hS sock hcase)

theorem stateInv_handleJoin (s : ClientState) (h : StateInv s) :
    StateInv (handleJoin s) := by
  unfold handleJoin
  by_cases h1 : jsTrim s.usernameInput = ""
  · rw [if_pos h1]; exact h
  · rw [if_neg h1]
    by_cases h2 : (jsTrim s.usernameInput).length > 20
    · rw [if_pos h2]; exact h
    · rw [if_neg h2]
      apply stateInv_connectWebSocket
      obtain ⟨hS, hC, hA, hP, hU, hN⟩ := h
      refine ⟨fun sock hsock => hS sock hsock, hC, hA, hP, hU, ?_⟩
      intro c hc
      simp only at hc
      exact hU c (mem_jsTrim hc)

theorem addChatMessage_def (t : ClientState) (u m ts : String) :
    addChatMessage t u m ts =
      { t with messagesList := t.messagesList ++
          [RenderedItem.chatMsg u m
            (if ts = "" then getCurrentTime t.nowH t.nowM else ts)
            (u == t.currentUsername)] } := rfl

theorem stateInv_initial : StateInv initialState := by
  refine ⟨?_, ?_, rfl, by simp [initialState], ?_, ?_⟩
  · intro sock hsock
    simp [initialState] at hsock
  · intro sock hsock
    simp [initialState] at hsock
  · intro c hc
    have he : (initialState.usernameInput).toList = [] := rfl
    rw [he] at hc
    exact absurd hc (List.not_mem_nil c)
  · intro c hc
    have he : (initialState.currentUsername).toList = [] := rfl
    rw [he] at hc
    exact absurd hc (List.not_mem_nil c)

theorem stateInv_reconnectFire (s : ClientState) (h : StateInv s) :
    StateInv (reconnectFire s) := by
  unfold reconnectFire
  cases hcase : s.reconnectTimers with
  | nil => exact h
  | cons d rest =>
    have h2 : StateInv { s with reconnectTimers := rest } :=
      stateInv_congr rfl rfl rfl rfl rfl rfl h
    show StateInv (if s.chatScreenHidden then { s with reconnectTimers := rest }
      else connectWebSocket { s with reconnectTimers := rest })
    by_cases hh : s.chatScreenHidden = true
    · rw [if_pos hh]; exact h2
    · rw [if_neg hh]; exact stateInv_connectWebSocket _ h2

theorem stateInv_handleTyping (s : ClientState) (h : StateInv s) :
    StateInv (handleTyping s) := by
  obtain ⟨hS, hC, hA, hP, hU, hN⟩ := h
  simp only [handleTyping]
  simp only [show (socketIsOpen { s with
    sendBtnDisabled := decide (jsTrim s.messageInput = "") } : Bool) = socketIsOpen s
    from rfl]
  by_cases hopen : socketIsOpen s = true
  · rw [if_neg (by simp [hopen])]
    by_cases hsend : jsTrim s.messageInput ≠ "" ∧ s.isTyping = false
    · simp only [if_pos hsend]
      have heven : s.typingLog.length % 2 = 0 := by
        rcases Nat.mod_two_eq_zero_or_one s.typingLog.length with h0 | h1
        · exact h0
        · exact absurd (hP.mpr h1) (by simp [hsend.2])
      refine ⟨?_, hC, ?_, ?_, hU, hN⟩
      · intro sock2 hsock2
        have hsock2' : Option.map (fun sock => sock.send ClientEnvelope.typing) s.socket =
            some sock2 := hsock2
        cases hcase : s.socket with
        | none => rw [hcase] at hsock2'; simp at hsock2'
        | some sock =>
          rw [hcase] at hsock2'
          simp only [Option.map_some', Option.some.injEq] at hsock2'
          rw [← hsock2']
          exact socketInv_send sock _ (hS sock hcase)
      · show altFrom true (s.typingLog ++ [true]) = true
        exact altFrom_snoc _ _ _ hA (by rw [if_pos heven])
      · show true = true ↔ (s.typingLog ++ [true]).length % 2 = 1
        simp
        omega
    · simp only [if_neg hsend]
      exact stateInv_congr rfl rfl rfl rfl rfl rfl ⟨hS, hC, hA, hP, hU, hN⟩
  · rw [if_pos (by simp [hopen])]
    exact stateInv_congr rfl rfl rfl rfl rfl rfl ⟨hS, hC, hA, hP, hU, hN⟩

theorem stateInv_typingTimeoutFire (s : ClientState) (h : StateInv s) :
    StateInv (typingTimeoutFire s) := by
  obtain ⟨hS, hC, hA, hP, hU, hN⟩ := h
  unfold typingTimeoutFire
  cases hcase : s.typingTimeout with
  | none => exact ⟨hS, hC, hA, hP, hU, hN⟩
  | some d =>
    show StateInv
      (if s.isTyping = true then
        { s with typingTimeout := none, isTyping := false,
                 socket := Option.map (fun sock => sock.send ClientEnvelope.stop_typing) s.socket,
                 typingLog := s.typingLog ++ [false] }
       else { s with typingTimeout := none })
    by_cases ht : s.isTyping = true
    · rw [if_pos ht]
      have hodd : s.typingLog.length % 2 = 1 := hP.mp ht
      refine ⟨?_, hC, ?_, ?_, hU, hN⟩
      · intro sock2 hsock2
        have hsock2' : Option.map (fun sock => sock.send ClientEnvelope.stop_typing) s.socket =
            some sock2 := hsock2
        cases hcase2 : s.socket with
        | none => rw [hcase2] at hsock2'; simp at hsock2'
        | some sock =>
          rw [hcase2] at hsock2'
          simp only [Option.map_some', Option.some.injEq] at hsock2'
          rw [← hsock2']
          exact socketInv_send sock _ (hS sock hcase2)
      · show altFrom true (s.typingLog ++ [false]) = true
        exact altFrom_snoc _ _ _ hA (by rw [if_neg (by omega)]; rfl)
      · show false = true ↔ (s.typingLog ++ [false]).length % 2 = 1
        have hlen : (s.typingLog ++ [false]).length % 2 = 0 := by
          simp only [List.length_append, List.length_cons, List.length_nil]
          omega
        constructor
        · intro hcontr; exact absurd hcontr (by simp)
        · intro hcontr; omega
    · rw [if_neg ht]
      exact ⟨hS, hC, hA, hP, hU, hN⟩

theorem stateInv_sendMessage (s : ClientState) (h : StateInv s) :
    StateInv (sendMessage s) := by
  obtain ⟨hS, hC, hA, hP, hU, hN⟩ := h
  simp only [sendMessage, addChatMessage_def]
  by_cases hret : jsTrim s.messageInput = "" ∨ socketIsOpen s = false
  · rw [if_pos hret]; exact ⟨hS, hC, hA, hP, hU, hN⟩
  · rw [if_neg hret]
    by_cases ht : s.isTyping = true
    · simp only [if_pos ht]
      have hodd : s.typingLog.length % 2 = 1 := hP.mp ht
      refine ⟨?_, hC, ?_, ?_, hU, hN⟩
      · intro sock2 hsock2
        have hsock2' : Option.map (fun sock => sock.send ClientEnvelope.stop_typing)
            (Option.map (fun sock => sock.send (ClientEnvelope.chat (jsTrim s.messageInput)))
              s.socket) = some sock2 := hsock2
        cases hcase : s.socket with
        | none => rw [hcase] at hsock2'; simp at hsock2'
        | some sock =>
          rw [hcase] at hsock2'
          simp only [Option.map_some', Option.some.injEq] at hsock2'
          rw [← hsock2']
          exact socketInv_send _ _ (socketInv_send sock _ (hS sock hcase))
      · show altFrom true (s.typingLog ++ [false]) = true
        exact altFrom_snoc _ _ _ hA (by rw [if_neg (by omega)]; rfl)
      · show false = true ↔ (s.typingLog ++ [false]).length % 2 = 1
        constructor
        · intro hcontr; exact absurd hcontr (by simp)
        · intro hcontr
          simp only [List.length_append, List.length_cons, List.length_nil] at hcontr
          omega
    · simp only [if_neg ht]
      refine ⟨?_, hC, hA, hP, hU, hN⟩
      intro sock2 hsock2
      have hsock2' : Option.map
          (fun sock => sock.send (ClientEnvelope.chat (jsTrim s.messageInput)))
          s.socket = some sock2 := hsock2
      cases hcase : s.socket with
      | none => rw [hcase] at hsock2'; simp at hsock2'
      | some sock =>
        rw [hcase] at hsock2'
        simp only [Option.map_some', Option.some.injEq] at hsock2'
        rw [← hsock2']
        exact socketInv_send sock _ (hS sock hcase)

theorem stateInv_handleMessage (s : ClientState) (data : ServerEnvelope)
    (h : StateInv s) : StateInv (handleMessage s data) := by
  cases data with
  | chat u m t => exact stateInv_congr rfl rfl rfl rfl rfl rfl h
  | system m => exact stateInv_congr rfl rfl rfl rfl rfl rfl h
  | typing users => exact stateInv_congr rfl rfl rfl rfl rfl rfl h
  | stats n => exact stateInv_congr rfl rfl rfl rfl rfl rfl h

theorem stateInv_switchRoom (s : ClientState) (newRoom : String) (h : StateInv s) :
    StateInv (switchRoom s newRoom) := by
  unfold switchRoom
  by_cases hr : newRoom = s.currentRoom
  · rw [if_pos hr]; exact h
  · rw [if_neg hr]
    apply stateInv_connectWebSocket
    apply stateInv_closeCurrentSocket
    exact stateInv_congr rfl rfl rfl rfl rfl rfl h

theorem stateInv_handleLeave (s : ClientState) (h : StateInv s) :
    StateInv (handleLeave s) := by
  obtain ⟨hS, hC, hA, hP, hU, hN⟩ := stateInv_closeCurrentSocket s h
  refine ⟨hS, hC, hA, hP, ?_, ?_⟩
  · intro c hc
    have hc' : c ∈ ([] : List Char) := hc
    exact absurd hc' (List.not_mem_nil c)
  · intro c hc
    have hc' : c ∈ ([] : List Char) := hc
    exact absurd hc' (List.not_mem_nil c)

theorem stateInv_step (s : ClientState) (e : ClientEvent) (h : StateInv s) :
    StateInv (step s e) := by
  cases e with
  | joinClick => exact stateInv_handleJoin s h
  | sockOpen => exact stateInv_socketOnOpen s h
  | sockClose => exact stateInv_socketOnClose s h
  | staleSockClose => exact stateInv_congr rfl rfl rfl rfl rfl rfl h
  | reconnectFires => exact stateInv_reconnectFire s h
  | msgInput t =>
    exact stateInv_handleTyping _ (stateInv_congr rfl rfl rfl rfl rfl rfl h)
  | typingFires => exact stateInv_typingTimeoutFire s h
  | sendClick => exact stateInv_sendMessage s h
  | serverMsg data => exact stateInv_handleMessage s data h
  | roomItemClick room =>
    show StateInv (if room ≠ s.currentRoom then switchRoom s room else s)
    by_cases hr : room ≠ s.currentRoom
    · rw [if_pos hr]; exact stateInv_switchRoom s room h
    · rw [if_neg hr]; exact h
  | roomSelectInput r => exact stateInv_congr rfl rfl rfl rfl rfl rfl h
  | usernameType t =>
    obtain ⟨hS, hC, hA, hP, hU, hN⟩ := h
    refine ⟨hS, hC, hA, hP, ?_, hN⟩
    intro c hc
    have hc' : c ∈ (filterUsernameInput t).toList := hc
    unfold filterUsernameInput at hc'
    rw [toList_mk] at hc'
    exact (List.mem_filter.mp hc').2
  | leaveConfirmed => exact stateInv_handleLeave s h

theorem stateInv_run (es : List ClientEvent) : StateInv (run es) := by
  unfold run
  suffices hgen : ∀ t, StateInv t → StateInv (es.foldl step t) by
    exact hgen initialState stateInv_initial
  induction es with
  | nil => intro t ht; exact ht
  | cons e rest ih =>
    intro t ht
    exact ih (step t e) (stateInv_step t e ht)

theorem socketOnOpen_socket (s : ClientState) (sock : Socket)
    (hsock : s.socket = some sock)
    (hconn : sock.readyState = ReadyState.CONNECTING) :
    (socketOnOpen s).socket =
      some (Socket.send { readyState := ReadyState.OPEN, sent := sock.sent }
        (ClientEnvelope.join s.currentUsername s.currentRoom)) := by
  unfold socketOnOpen
  rw [hsock]
  show (if sock.readyState = ReadyState.CONNECTING then
      { s with socket := some (Socket.send
          { readyState := ReadyState.OPEN, sent := sock.sent }
          (ClientEnvelope.join s.currentUsername s.currentRoom)) }
    else s).socket = _
  rw [if_pos hconn]

theorem closeCurrentSocket_eq (t : ClientState) (sock : Socket)
    (hsock : t.socket = some sock) :
    closeCurrentSocket t =
      { t with socket := some { sock with readyState := ReadyState.CLOSED },
               closedSockets := t.closedSockets ++
                 [{ sock with readyState := ReadyState.CLOSED }] } := by
  unfold closeCurrentSocket
  rw [hsock]

theorem getCurrentTime_ne_empty (h m : Nat) : getCurrentTime h m ≠ "" := by
  intro hc
  have hlen := congrArg String.length hc
  simp only [getCurrentTime, String.length_append] at hlen
  rw [show (":" : String).length = 1 from rfl,
      show ("" : String).length = 0 from rfl] at hlen
  omega

/-! ### Claim theorems -/

/-- C1: a chat broadcast in a room is delivered to exactly the connections
whose room is that room — every member of the room (the sender included if it
is a member) receives the envelope, and no connection assigned to any other
room appears among the deliveries. -/
theorem chat_broadcast_room_isolation (reg : Registry) (roomA : String)
    (env : ServerEnvelope) (c : ServerConn) :
    (c, env) ∈ broadcastDeliveries reg roomA env ↔
      c ∈ reg.conns ∧ c.room = roomA := by
  unfold broadcastDeliveries membersOf
  constructor
  · intro hmem
    obtain ⟨c2, hc2, heq⟩ := List.mem_map.mp hmem
    obtain ⟨hconns, hroom⟩ := List.mem_filter.mp hc2
    have hc2c : c2 = c := congrArg Prod.fst heq
    rw [hc2c] at hconns hroom
    refine ⟨hconns, ?_⟩
    exact beq_iff_eq.mp hroom
  · intro hc
    exact List.mem_map.mpr ⟨c, List.mem_filter.mpr ⟨hc.1, by simp [hc.2]⟩, rfl⟩

/-- C7: the typing-user list renders in received (insertion) order in the
"X, Y and N others" style — an absent or empty list hides the indicator, one
user gives "u0 is typing...", two give "u0 and u1 are typing...", and three
or more give "u0, u1 and (n-2) others are typing...", always using the first
two usernames in list order. -/
theorem typing_indicator_rendering :
    updateTypingIndicator none = none ∧
    (∀ us : List String, us.length = 0 → updateTypingIndicator (some us) = none) ∧
    (∀ u0 : String,
      updateTypingIndicator (some [u0]) = some (u0 ++ " is typing...")) ∧
    (∀ u0 u1 : String,
      updateTypingIndicator (some [u0, u1]) =
        some (u0 ++ " and " ++ u1 ++ " are typing...")) ∧
    (∀ (u0 u1 u2 : String) (rest : List String),
      updateTypingIndicator (some (u0 :: u1 :: u2 :: rest)) =
        some (u0 ++ ", " ++ u1 ++ " and " ++ toString (rest.length + 1) ++
          " others are typing...")) := by
  refine ⟨rfl, ?_, ?_, ?_, ?_⟩
  · intro us h
    show (if us.length = 0 then none else some (typingIndicatorText us)) = none
    rw [if_pos h]
  · intro u0
    rfl
  · intro u0 u1
    rfl
  · intro u0 u1 u2 rest
    show (if (u0 :: u1 :: u2 :: rest).length = 0 then none
        else some (typingIndicatorText (u0 :: u1 :: u2 :: rest))) =
      some (u0 ++ ", " ++ u1 ++ " and " ++ toString (rest.length + 1) ++
        " others are typing...")
    rw [if_neg (by simp only [List.length_cons]; omega)]
    unfold typingIndicatorText
    rw [if_neg (by simp only [List.length_cons]; omega),
        if_neg (by simp only [List.length_cons]; omega)]
    have hn : (u0 :: u1 :: u2 :: rest).length - 2 = rest.length + 1 := by
      simp only [List.length_cons]; omega
    rw [hn]
    rfl

/-- C7 witness: concrete renderings for an empty list and a list of four
users. -/
theorem typing_indicator_rendering_witness :
    updateTypingIndicator (some ([] : List String)) = none ∧
    updateTypingIndicator (some ["A", "B", "C", "D"]) =
      some "A, B and 2 others are typing..." := by
  constructor
  · exact typing_indicator_rendering.2.1 [] rfl
  · rw [typing_indicator_rendering.2.2.2.2 "A" "B" "C" ["D"]]
    decide

/-- C8: for every in-range hour (0-23) and minute (0-59) component of the
wall clock, `getCurrentTime` produces a 5-character string of a zero-padded
two-digit hour, a colon, and a zero-padded two-digit minute. -/
theorem timestamp_format : ∀ h : Nat, h < 24 → ∀ m : Nat, m < 60 →
    (getCurrentTime h m).length = 5 ∧
    (getCurrentTime h m).toList =
      [Char.ofNat (48 + h / 10), Char.ofNat (48 + h % 10), ':',
       Char.ofNat (48 + m / 10), Char.ofNat (48 + m % 10)] := by decide

/-- C8 witness: the timestamp at 23:59. -/
theorem timestamp_format_witness :
    (getCurrentTime 23 59).length = 5 ∧
    (getCurrentTime 23 59).toList =
      [Char.ofNat (48 + 23 / 10), Char.ofNat (48 + 23 % 10), ':',
       Char.ofNat (48 + 59 / 10), Char.ofNat (48 + 59 % 10)] :=
  timestamp_format 23 (by decide) 59 (by decide)

/-- C2: in every reachable client state, the transcript of the current
socket — and of every socket that was explicitly closed — is empty or begins
with a join envelope (which carries exactly a username and a room and no
type tag), so no chat, typing, or stop_typing envelope is ever transmitted
before it; moreover opening a connecting socket transmits precisely the join
envelope carrying the current username and room as its first message. -/
theorem first_message_is_join (es : List ClientEvent) :
    (∀ sock, (run es).socket = some sock → joinFirst sock.sent) ∧
    (∀ sock ∈ (run es).closedSockets, joinFirst sock.sent) ∧
    (∀ sock, (run es).socket = some sock →
      sock.readyState = ReadyState.CONNECTING →
      (socketOnOpen (run es)).socket =
        some { readyState := ReadyState.OPEN,
               sent := [ClientEnvelope.join (run es).currentUsername
                          (run es).currentRoom] }) := by
  obtain ⟨hS, hC, hA, hP, hU, hN⟩ := stateInv_run es
  refine ⟨fun sock hsock => (hS sock hsock).2.2,
          fun sock hmem => (hC sock hmem).2.2, ?_⟩
  intro sock hsock hconn
  have hsent : sock.sent = [] := (hS sock hsock).1 hconn
  rw [socketOnOpen_socket (run es) sock hsock hconn, hsent]
  rfl

/-- C2 witness: after typing a username and clicking join, the fresh socket
is connecting with an empty transcript, and completing the handshake
transmits exactly the join envelope. -/
theorem first_message_is_join_witness :
    (socketOnOpen (run [ClientEvent.usernameType "Ada", ClientEvent.joinClick])).socket =
      some { readyState := ReadyState.OPEN,
             sent := [ClientEnvelope.join
               (run [ClientEvent.usernameType "Ada", ClientEvent.joinClick]).currentUsername
               (run [ClientEvent.usernameType "Ada", ClientEvent.joinClick]).currentRoom] } :=
  (first_message_is_join [ClientEvent.usernameType "Ada", ClientEvent.joinClick]).2.2
    { readyState := ReadyState.CONNECTING, sent := [] } (by decide) rfl

/-- C9 counterexample: after a room switch with the debounce timer pending,
the new connection transmits a stop_typing envelope with no typing envelope
ever sent on it — the typing-kind envelopes on that connection do not
alternate starting with typing. -/
theorem typing_alternation_per_connection_cex :
    (run c9events).socket =
      some { readyState := ReadyState.OPEN,
             sent := [ClientEnvelope.join "Ada" "tech",
                      ClientEnvelope.stop_typing] } ∧
    connAlternates { readyState := ReadyState.OPEN,
                     sent := [ClientEnvelope.join "Ada" "tech",
                              ClientEnvelope.stop_typing] } = false := by
  constructor
  · decide
  · decide

/-- C9 amended: the ghost log of every typing/stop_typing send attempt
strictly alternates starting with typing across the whole session — the
isTyping flag guards and toggles with each attempt — but only globally, not
per connection: a room switch can carry a pending stop_typing onto the new
connection. -/
theorem typing_attempts_alternate (es : List ClientEvent) :
    altFrom true (run es).typingLog = true :=
  (stateInv_run es).2.2.1

/-- C3 counterexample: the username filter keeps every JavaScript `\s`
character, not only the space character — a tab typed into the username
field survives the filter and the trim, joins successfully, and reaches the
join envelope, although a tab is neither alphanumeric, underscore, nor a
space. -/
theorem username_space_only_cex :
    (run [ClientEvent.usernameType "a\tb", ClientEvent.joinClick,
          ClientEvent.sockOpen]).socket =
      some { readyState := ReadyState.OPEN,
             sent := [ClientEnvelope.join "a\tb" "general"] } ∧
    '\t' ∈ ("a\tb" : String).toList ∧
    specUsernameChar '\t' = false := by
  refine ⟨by decide, by decide, by decide⟩

/-- C3 amended: a join with an empty trimmed username or one longer than 20
characters returns without connecting; the username input only ever holds —
and so the username used to join only ever contains — alphanumeric
characters, underscores, and whitespace characters of the JavaScript `\s`
class (which admits tab and newline, not only the space character). -/
theorem username_validation (s : ClientState) (t : String)
    (es : List ClientEvent) :
    (jsTrim s.usernameInput = "" → handleJoin s = s) ∧
    ((jsTrim s.usernameInput).length > 20 → handleJoin s = s) ∧
    (∀ c ∈ (jsTrim (filterUsernameInput t)).toList, allowedChar c = true) ∧
    (∀ c ∈ (run es).currentUsername.toList, allowedChar c = true) := by
  refine ⟨?_, ?_, ?_, (stateInv_run es).2.2.2.2.2⟩
  · intro h1
    unfold handleJoin
    rw [if_pos h1]
  · intro h2
    unfold handleJoin
    by_cases h1 : jsTrim s.usernameInput = ""
    · rw [if_pos h1]
    · rw [if_neg h1, if_pos h2]
  · intro c hc
    have hc2 := mem_jsTrim hc
    unfold filterUsernameInput at hc2
    rw [toList_mk] at hc2
    exact (List.mem_filter.mp hc2).2

/-- C3 amended witness: a whitespace-only username does not connect, and a
filtered username contains only allowed characters. -/
theorem username_validation_witness :
    handleJoin { initialState with usernameInput := "   " } =
      { initialState with usernameInput := "   " } ∧
    (∀ c ∈ (jsTrim (filterUsernameInput "Ada Lovelace!")).toList,
      allowedChar c = true) :=
  ⟨(username_validation { initialState with usernameInput := "   " } "x" []).1
      (by decide),
   (username_validation initialState "Ada Lovelace!" []).2.2.1⟩

/-- C4: every close of the current socket schedules a reconnect timer with
the fixed 2000 ms delay and no retry counter; when a pending reconnect
timer fires with the chat screen visible, `connectWebSocket` runs again and
the fresh connection re-sends the join envelope on open; when it fires with
the chat screen hidden, the timer is consumed and nothing else happens. -/
theorem reconnect_policy (s : ClientState) (sock : Socket) (d : Nat)
    (rest : List Nat) :
    (s.socket = some sock →
      (socketOnClose s).reconnectTimers = s.reconnectTimers ++ [2000]) ∧
    (s.reconnectTimers = d :: rest → s.chatScreenHidden = false →
      reconnectFire s = connectWebSocket { s with reconnectTimers := rest } ∧
      (reconnectFire s).socket =
        some { readyState := ReadyState.CONNECTING, sent := [] } ∧
      (socketOnOpen (reconnectFire s)).socket =
        some { readyState := ReadyState.OPEN,
               sent := [ClientEnvelope.join s.currentUsername s.currentRoom] }) ∧
    (s.reconnectTimers = d :: rest → s.chatScreenHidden = true →
      reconnectFire s = { s with reconnectTimers := rest }) := by
  refine ⟨?_, ?_, ?_⟩
  · intro hsock
    unfold socketOnClose
    rw [hsock]
  · intro ht hh
    have h1 : reconnectFire s = connectWebSocket { s with reconnectTimers := rest } := by
      unfold reconnectFire
      rw [ht]
      show (if s.chatScreenHidden then { s with reconnectTimers := rest }
        else connectWebSocket { s with reconnectTimers := rest }) = _
      rw [if_neg (by simp [hh])]
    refine ⟨h1, by rw [h1]; rfl, ?_⟩
    rw [h1, socketOnOpen_socket (connectWebSocket { s with reconnectTimers := rest })
      { readyState := ReadyState.CONNECTING, sent := [] } rfl rfl]
    rfl
  · intro ht hh
    unfold reconnectFire
    rw [ht]
    show (if s.chatScreenHidden then { s with reconnectTimers := rest }
      else connectWebSocket { s with reconnectTimers := rest }) = _
    rw [if_pos hh]

/-- C4 witness: a concrete close schedules the 2000 ms timer; firing it with
the chat visible reconnects and re-joins; firing it with the chat hidden
only consumes the timer. -/
theorem reconnect_policy_witness :
    (socketOnClose { initialState with
        socket := some { readyState := ReadyState.OPEN, sent := [] } }).reconnectTimers = [2000] ∧
    (socketOnOpen (reconnectFire { initialState with
        reconnectTimers := [2000], chatScreenHidden := false })).socket =
      some { readyState := ReadyState.OPEN,
             sent := [ClientEnvelope.join "" "general"] } ∧
    reconnectFire { initialState with reconnectTimers := [2000] } =
      { initialState with reconnectTimers := [] } :=
  ⟨(reconnect_policy _ { readyState := ReadyState.OPEN, sent := [] } 0 []).1 rfl,
   ((reconnect_policy
      { initialState with reconnectTimers := [2000], chatScreenHidden := false }
      { readyState := ReadyState.OPEN, sent := [] }
      2000 []).2.1 rfl rfl).2.2,
   (reconnect_policy { initialState with reconnectTimers := [2000] }
      { readyState := ReadyState.OPEN, sent := [] } 2000 []).2.2 rfl rfl⟩

theorem typingTimeoutFire_eq (t : ClientState) (d : Nat)
    (ht : t.typingTimeout = some d) :
    typingTimeoutFire t =
      (if t.isTyping = true then
        { t with typingTimeout := none, isTyping := false,
                 socket := Option.map (fun so => so.send ClientEnvelope.stop_typing) t.socket,
                 typingLog := t.typingLog ++ [false] }
       else { t with typingTimeout := none }) := by
  unfold typingTimeoutFire
  rw [ht]

/-- C5 counterexample: an input event placing the non-empty message "hi"
while the socket is not open (here: before any connection) sends no typing
envelope and schedules no debounce timer — `handleTyping` returns before the
timer logic when the socket is not open, so the claim's "every input event"
fails. -/
theorem typing_debounce_cex :
    (run [ClientEvent.msgInput "hi"]).typingTimeout = none ∧
    (run [ClientEvent.msgInput "hi"]).typingLog = [] ∧
    jsTrim (run [ClientEvent.msgInput "hi"]).messageInput = "hi" ∧
    (run [ClientEvent.msgInput "hi"]).isTyping = false := by
  refine ⟨by decide, by decide, by decide, by decide⟩

/-- C5 amended: while the socket is open, an input event with a non-empty
trimmed message and the client not already marked typing transmits a typing
envelope and sets the flag; every input event while the socket is open
replaces any pending debounce timer with a fresh one of exactly 1000 ms;
when a pending debounce timer fires it is consumed and sends a stop_typing
envelope (clearing the flag) only if the client is still marked typing. -/
theorem typing_debounce (s s2 : ClientState) (sock : Socket) (d : Nat) :
    (s.socket = some sock → sock.readyState = ReadyState.OPEN →
      ((jsTrim s.messageInput ≠ "" ∧ s.isTyping = false →
        (handleTyping s).socket =
          some { sock with sent := sock.sent ++ [ClientEnvelope.typing] } ∧
        (handleTyping s).isTyping = true ∧
        (handleTyping s).typingLog = s.typingLog ++ [true]) ∧
       (handleTyping s).typingTimeout = some 1000)) ∧
    (s2.typingTimeout = some d →
      ((typingTimeoutFire s2).typingTimeout = none ∧
       (s2.isTyping = true →
         (typingTimeoutFire s2).typingLog = s2.typingLog ++ [false] ∧
         (typingTimeoutFire s2).isTyping = false ∧
         (typingTimeoutFire s2).socket =
           s2.socket.map (fun so => so.send ClientEnvelope.stop_typing)) ∧
       (s2.isTyping = false →
         typingTimeoutFire s2 = { s2 with typingTimeout := none }))) := by
  constructor
  · intro hsock hopen
    have hopen' : socketIsOpen s = true := by
      unfold socketIsOpen
      rw [hsock]
      show decide (sock.readyState = ReadyState.OPEN) = true
      rw [hopen]
      rfl
    constructor
    · intro ⟨hmsg, htyp⟩
      simp only [handleTyping]
      simp only [show (socketIsOpen { s with
        sendBtnDisabled := decide (jsTrim s.messageInput = "") } : Bool) =
        socketIsOpen s from rfl]
      rw [if_neg (by simp [hopen'])]
      simp only [if_pos (And.intro hmsg htyp)]
      refine ⟨?_, by trivial, by trivial⟩
      show Option.map (fun so => so.send ClientEnvelope.typing) s.socket =
        some { sock with sent := sock.sent ++ [ClientEnvelope.typing] }
      rw [hsock]
      simp only [Option.map_some', Option.some.injEq]
      unfold Socket.send
      rw [if_pos hopen]
    · simp only [handleTyping]
      simp only [show (socketIsOpen { s with
        sendBtnDisabled := decide (jsTrim s.messageInput = "") } : Bool) =
        socketIsOpen s from rfl]
      rw [if_neg (by simp [hopen'])]
  · intro ht
    rw [typingTimeoutFire_eq s2 d ht]
    refine ⟨?_, ?_, ?_⟩
    · by_cases h2 : s2.isTyping = true
      · rw [if_pos h2]
      · rw [if_neg h2]
    · intro h2
      rw [if_pos h2]
      exact ⟨rfl, rfl, rfl⟩
    · intro h2
      rw [if_neg (by simp [h2])]

/-- C5 amended witness: typing "hi" over an open socket sends the typing
envelope and arms a 1000 ms timer; firing a pending timer with the flag set
logs a stop_typing attempt. -/
theorem typing_debounce_witness :
    (handleTyping typingStateA).socket =
      some { readyState := ReadyState.OPEN, sent := [ClientEnvelope.typing] } ∧
    (handleTyping typingStateA).typingTimeout = some 1000 ∧
    (typingTimeoutFire typingStateB).typingLog = [false] ∧
    (typingTimeoutFire typingStateB).isTyping = false := by
  have h := typing_debounce typingStateA typingStateB
    { readyState := ReadyState.OPEN, sent := [] } 1000
  have h1 := (h.1 rfl rfl).1 ⟨by decide, rfl⟩
  have h2 := (h.2 rfl).2.1 rfl
  exact ⟨h1.1, (h.1 rfl rfl).2, h2.1, h2.2.1⟩

/-- C6: clicking a room different from the current one performs
leave-then-join — the current room is updated, the old socket is closed with
its transcript intact (archived unchanged), a fresh connecting socket with
an empty transcript replaces it, and on open the new connection's first and
only message is a join envelope naming the new room; opening it does not
touch any closed socket's transcript, so no established connection's room is
ever mutated in place. -/
theorem switch_room_leave_then_join (s : ClientState) (sock : Socket)
    (newRoom : String) (hne : newRoom ≠ s.currentRoom)
    (hsock : s.socket = some sock) :
    (step s (ClientEvent.roomItemClick newRoom)).currentRoom = newRoom ∧
    (step s (ClientEvent.roomItemClick newRoom)).currentUsername = s.currentUsername ∧
    (step s (ClientEvent.roomItemClick newRoom)).socket =
      some { readyState := ReadyState.CONNECTING, sent := [] } ∧
    (step s (ClientEvent.roomItemClick newRoom)).closedSockets =
      s.closedSockets ++ [{ sock with readyState := ReadyState.CLOSED }] ∧
    (socketOnOpen (step s (ClientEvent.roomItemClick newRoom))).socket =
      some { readyState := ReadyState.OPEN,
             sent := [ClientEnvelope.join s.currentUsername newRoom] } ∧
    (socketOnOpen (step s (ClientEvent.roomItemClick newRoom))).closedSockets =
      (step s (ClientEvent.roomItemClick newRoom)).closedSockets := by
  have hstep : step s (ClientEvent.roomItemClick newRoom) =
      connectWebSocket (closeCurrentSocket
        { s with currentRoom := newRoom, messagesList := [] }) := by
    show (if newRoom ≠ s.currentRoom then switchRoom s newRoom else s) = _
    rw [if_pos hne]
    unfold switchRoom
    rw [if_neg hne]
  have hclose :=
    closeCurrentSocket_eq { s with currentRoom := newRoom, messagesList := [] }
      sock hsock
  rw [hstep, hclose]
  refine ⟨rfl, rfl, rfl, rfl, ?_, ?_⟩
  · rw [socketOnOpen_socket _ { readyState := ReadyState.CONNECTING, sent := [] }
      rfl rfl]
    rfl
  · rfl

/-- C6 witness: switching "Ada" from general to tech closes the old socket
with its transcript intact and joins tech on a fresh connection. -/
theorem switch_room_leave_then_join_witness :
    (step switchStateC6 (ClientEvent.roomItemClick "tech")).currentRoom = "tech" ∧
    (step switchStateC6 (ClientEvent.roomItemClick "tech")).closedSockets =
      [{ readyState := ReadyState.CLOSED,
         sent := [ClientEnvelope.join "Ada" "general"] }] ∧
    (socketOnOpen (step switchStateC6 (ClientEvent.roomItemClick "tech"))).socket =
      some { readyState := ReadyState.OPEN,
             sent := [ClientEnvelope.join "Ada" "tech"] } := by
  have h := switch_room_leave_then_join switchStateC6
    { readyState := ReadyState.OPEN, sent := [ClientEnvelope.join "Ada" "general"] }
    "tech" (by decide) rfl
  exact ⟨h.1, h.2.2.2.1, h.2.2.2.2.1⟩

theorem addChatMessage_messagesList (t : ClientState) (u m ts : String) :
    (addChatMessage t u m ts).messagesList =
      t.messagesList ++ [RenderedItem.chatMsg u m
        (if ts = "" then getCurrentTime t.nowH t.nowM else ts)
        (u == t.currentUsername)] := rfl

/-- C10: a successful send (non-empty trimmed message, open socket) appends
the sender's own message to the local list immediately, before any server
response; when the server's chat broadcast (which includes the sender)
carrying the same username and message later arrives, `handleMessage`
appends it a second time, leaving two copies of the message in the sender's
list. -/
theorem own_message_rendered_twice (s : ClientState) (ts : String)
    (hmsg : jsTrim s.messageInput ≠ "") (hopen : socketIsOpen s = true)
    (hts : ts ≠ "") :
    (sendMessage s).messagesList =
      s.messagesList ++ [RenderedItem.chatMsg s.currentUsername
        (jsTrim s.messageInput) (getCurrentTime s.nowH s.nowM) true] ∧
    (handleMessage (sendMessage s)
        (ServerEnvelope.chat s.currentUsername (jsTrim s.messageInput) ts)).messagesList =
      s.messagesList ++
        [RenderedItem.chatMsg s.currentUsername (jsTrim s.messageInput)
           (getCurrentTime s.nowH s.nowM) true,
         RenderedItem.chatMsg s.currentUsername (jsTrim s.messageInput) ts true] := by
  have hcond : ¬ (jsTrim s.messageInput = "" ∨ socketIsOpen s = false) := by
    simp [hmsg, hopen]
  have hlist : (sendMessage s).messagesList =
      s.messagesList ++ [RenderedItem.chatMsg s.currentUsername
        (jsTrim s.messageInput) (getCurrentTime s.nowH s.nowM) true] := by
    simp only [sendMessage, addChatMessage_def]
    rw [if_neg hcond]
    by_cases ht : s.isTyping = true
    · simp only [if_pos ht, if_neg (getCurrentTime_ne_empty s.nowH s.nowM),
        beq_self_eq_true]
    · simp only [if_neg ht, if_neg (getCurrentTime_ne_empty s.nowH s.nowM),
        beq_self_eq_true]
  have huser : (sendMessage s).currentUsername = s.currentUsername := by
    simp only [sendMessage, addChatMessage_def]
    rw [if_neg hcond]
    by_cases ht : s.isTyping = true
    · simp only [if_pos ht]
    · simp only [if_neg ht]
  refine ⟨hlist, ?_⟩
  show (addChatMessage (sendMessage s) s.currentUsername
    (jsTrim s.messageInput) ts).messagesList = _
  rw [addChatMessage_messagesList, if_neg hts, huser, beq_self_eq_true, hlist,
    List.append_assoc]
  rfl

/-- C10 witness: "Ada" sends "hi" at 14:30, then receives the server's echo
stamped 14:31 — the message ends up in the list twice. -/
theorem own_message_rendered_twice_witness :
    (handleMessage (sendMessage sendStateC10)
      (ServerEnvelope.chat "Ada" "hi" "14:31")).messagesList =
      [RenderedItem.chatMsg "Ada" "hi" "14:30" true,
       RenderedItem.chatMsg "Ada" "hi" "14:31" true] := by
  have h := own_message_rendered_twice sendStateC10 "14:31"
    (by decide) (by decide) (by decide)
  exact h.2

end Chatterbox
